import Mathlib

/-!
Shallow embedding of the voxel-streaming core of `bevy_voxel_game`
(`src/main.rs`, the full 3D variant, and `src/f.rs`, the column variant).

Modelling conventions:
* `IVec3` is the engine's integer vector; `Vec3q` models `Vec3` (f32 triples)
  over ℚ.  Almost every f32 operation the collision/streaming code performs
  on positions — division by the power of two `CHUNK_SIZE = 16`, `floor`,
  fmod by 16, casts of in-range integral values — is exact in IEEE binary
  floating point, so the rational model matches the f32 code there (i32
  cast saturation for astronomically large magnitudes is outside every
  claim's range and is not modelled).  The one inexact operation is the
  `r + rhs.abs()` addition inside `f32::rem_euclid`: `rem_euclid` below is
  the idealised exact remainder, and `rem_euclid_f32` /
  `check_collision_f32` model the rounding, which matters only within half
  an ULP below a multiple of 16 (claim C6).
* The Perlin-noise height `(perlin.get([wx*0.01, wz*0.01])*32.0+32.0) as i32`
  is an opaque deterministic integer function of `(world_x, world_z)`; it is
  abstracted as a `height : Int → Int → Int` parameter, and statements
  quantify over it.
* `Vec<Vec<Vec<bool>>>` is a nested `List`; Rust's panicking index operator
  is modelled by `Option`-valued access (`none` = panic).
* The `HashMap<IVec3, _>` chunk store is an association list; the source
  inserts a key only when `contains_key` is false, so association-list
  lookup agrees with the hash map.
* Bevy ECS state is explicit: the set of spawned `Chunk` render entities is
  the list of their `Chunk.position` values, and one run of the
  `update_visible_chunks` system is a pure function on that state.
-/

/-- `const CHUNK_SIZE: i32 = 16;` (both source files). -/
def CHUNK_SIZE : Int := 16

/-- `const RENDER_DISTANCE: i32 = 3;` (`main.rs`). -/
def RENDER_DISTANCE : Int := 3

/-- `const WORLD_SIZE: i32 = 4;` (`f.rs`). -/
def WORLD_SIZE : Int := 4

/-- Bevy `IVec3`: integer chunk coordinates. -/
structure IVec3 where
  x : Int
  y : Int
  z : Int
deriving DecidableEq, Repr

/-- Componentwise `IVec3` addition (`player_chunk + IVec3::new(x, y, z)`). -/
def IVec3.add (a b : IVec3) : IVec3 := ⟨a.x + b.x, a.y + b.y, a.z + b.z⟩

/-- `(a - b).abs().max_element()`: the Chebyshev distance used by both
despawn loops. -/
def chebyshev (a b : IVec3) : Int := max |a.x - b.x| (max |a.y - b.y| |a.z - b.z|)

/-- Bevy `Vec3` (f32 positions), modelled over ℚ; see the header for why the
operations the source performs on positions are exact. -/
structure Vec3q where
  x : ℚ
  y : ℚ
  z : ℚ
deriving DecidableEq

/-- Componentwise `Vec3` addition. -/
def Vec3q.vadd (a b : Vec3q) : Vec3q := ⟨a.x + b.x, a.y + b.y, a.z + b.z⟩

/-- Scalar multiple of a `Vec3`. -/
def Vec3q.scale (k : ℚ) (a : Vec3q) : Vec3q := ⟨k * a.x, k * a.y, k * a.z⟩

/-- Rust `as i32` applied to a finite float with small magnitude: truncation
toward zero. -/
def to_i32 (q : ℚ) : Int := if 0 ≤ q then ⌊q⌋ else -⌊-q⌋

/-- The idealised Euclidean remainder, the intent of
`f32::rem_euclid(self, rhs)` for `rhs = 16`: the least non-negative
representative `self - rhs * (self / rhs).floor()`, always in `[0, rhs)`.
The actual f32 computation deviates from this within half an ULP below a
multiple of 16, where its rounded `r + rhs` adjustment yields exactly
`rhs` — see `rem_euclid_f32`. -/
def rem_euclid (q n : ℚ) : ℚ := q - n * ⌊q / n⌋

/-- `(v / CHUNK_SIZE as f32).floor() as i32`: one axis of the chunk
coordinate of a world position (`update_visible_chunks` and
`check_collision` in `main.rs` use this same expression). -/
def chunk_of (q : ℚ) : Int := ⌊q / (CHUNK_SIZE : ℚ)⌋

/-- `(v.rem_euclid(CHUNK_SIZE as f32)) as i32`: one axis of the local voxel
coordinate in `check_collision`, under the idealised remainder; the
faithful version is `local_of_f32`. -/
def local_of (q : ℚ) : Int := to_i32 (rem_euclid q (CHUNK_SIZE : ℚ))

/-- The chunk coordinate of a world position, all three axes
(`player_chunk` in `update_visible_chunks`, `chunk_pos` in
`check_collision`). -/
def chunk_coord_of (p : Vec3q) : IVec3 := ⟨chunk_of p.x, chunk_of p.y, chunk_of p.z⟩

/-- `(player_transform.translation / (CHUNK_SIZE as f32)).as_ivec3()` from
`generate_chunks` in `f.rs`: `as_ivec3` casts each f32 component with `as`,
i.e. truncation toward zero, not floor. -/
def f_player_chunk (translation : Vec3q) : IVec3 :=
  ⟨to_i32 (translation.x / (CHUNK_SIZE : ℚ)),
   to_i32 (translation.y / (CHUNK_SIZE : ℚ)),
   to_i32 (translation.z / (CHUNK_SIZE : ℚ))⟩

/-- `Vec<Vec<Vec<bool>>>`: a chunk's voxel occupancy data. -/
abbrev VoxelGrid := List (List (List Bool))

/-- Read `grid[x][y][z]` at indices known (or assumed) in range; out-of-range
reads default to `false`/`[]` and are never relied upon. -/
def get3 (g : VoxelGrid) (x y z : Nat) : Bool := ((g.getD x []).getD y []).getD z false

/-- Write `grid[x][y][z] = b` (out-of-range writes are dropped, matching
`List.set`; the generator only writes in range). -/
def set3 (g : VoxelGrid) (x y z : Nat) (b : Bool) : VoxelGrid :=
  g.set x ((g.getD x []).set y (((g.getD x []).getD y []).set z b))

/-- Rust `chunk[i][j][k]` where each index is an `i32` cast `as usize`:
a negative or out-of-range index panics, modelled by `none`. -/
def get3i (g : VoxelGrid) (i j k : Int) : Option Bool :=
  if 0 ≤ i ∧ 0 ≤ j ∧ 0 ≤ k then
    match g.get? i.toNat with
    | some plane =>
      match plane.get? j.toNat with
      | some row => row.get? k.toNat
      | none => none
    | none => none
  else none

/-- `fn generate_chunk(chunk_pos: IVec3) -> Vec<Vec<Vec<bool>>>` from
`main.rs`: allocate an all-`false` 16×16×16 grid, then for each `(x, z)`
column evaluate the height once and mark `chunk[x][y][z] = true` for every
`y` with `world_y < height`.  The Perlin evaluation is the abstracted
`height` parameter (see header). -/
def generate_chunk (height : Int → Int → Int) (chunk_pos : IVec3) : VoxelGrid :=
  let chunk : VoxelGrid :=
    List.replicate CHUNK_SIZE.toNat
      (List.replicate CHUNK_SIZE.toNat (List.replicate CHUNK_SIZE.toNat false))
  (List.range CHUNK_SIZE.toNat).foldl (fun chunk (x : Nat) =>
    (List.range CHUNK_SIZE.toNat).foldl (fun chunk (z : Nat) =>
      let world_x := chunk_pos.x * CHUNK_SIZE + (x : Int)
      let world_z := chunk_pos.z * CHUNK_SIZE + (z : Int)
      let h := height world_x world_z
      (List.range CHUNK_SIZE.toNat).foldl (fun chunk (y : Nat) =>
        let world_y := chunk_pos.y * CHUNK_SIZE + (y : Int)
        if world_y < h then set3 chunk x y z true else chunk) chunk) chunk) chunk

/-- First-match association-list lookup, the model of `HashMap::get` /
`HashMap::contains_key` (keys are only ever inserted when absent). -/
def assocLookup {α β : Type} [DecidableEq α] : List (α × β) → α → Option β
  | [], _ => none
  | (k, v) :: rest, a => if k = a then some v else assocLookup rest a

/-- `struct WorldMap { chunks: HashMap<IVec3, Vec<Vec<Vec<bool>>>> }`. -/
structure WorldMap where
  chunks : List (IVec3 × VoxelGrid)

/-- `fn check_collision(world_map: &WorldMap, position: Vec3) -> bool`
under the idealised remainder: `some b` is a normal return of `b`; `none`
is the indexing panic (unreachable in this idealised model, but reachable
in the faithful `check_collision_f32` — claim C6). -/
def check_collision (world_map : WorldMap) (position : Vec3q) : Option Bool :=
  let chunk_pos := chunk_coord_of position
  match assocLookup world_map.chunks chunk_pos with
  | some chunk =>
    get3i chunk (local_of position.x) (local_of position.y) (local_of position.z)
  | none => some false

/-- The tail of `fn player_movement` in `main.rs`: form the candidate
`new_position = translation + direction * 5.0 * delta_seconds`, then commit
it only when `!check_collision(...)`.  The unit `direction` produced from
key state and the transform basis (and its f32 normalisation) is upstream of
this claim and enters as a parameter; `none` propagates a collision panic. -/
def player_movement (world_map : WorldMap) (translation direction : Vec3q) (dt : ℚ) :
    Option Vec3q :=
  let new_position := translation.vadd (Vec3q.scale (5 * dt) direction)
  match check_collision world_map new_position with
  | some true => some translation
  | some false => some new_position
  | none => none

/-- The tail of `fn player_movement` in `f.rs`:
`translation += direction.normalize_or_zero() * speed * delta_seconds` with
`speed = 10.0`, committed unconditionally — `f.rs` performs no collision
query at all.  The normalised direction enters as a parameter. -/
def f_player_movement (translation direction : Vec3q) (dt : ℚ) : Vec3q :=
  translation.vadd (Vec3q.scale (10 * dt) direction)

/-- Vertex/index/normal buffers accumulated by `spawn_chunk`.  Vertex and
normal components are integral f32 values, modelled over Int; `u32` indices
are Nat (at most `8 * 16³` vertices exist, far below `2³²`, so `u32`
arithmetic never wraps). -/
structure MeshData where
  vertices : List (Int × Int × Int)
  indices : List Nat
  normals : List (Int × Int × Int)

/-- `fn add_cube_to_mesh` from `main.rs`: push 8 cube corner positions,
36 indices offset by the vertex count so far, and the 6 per-face normals
each repeated 4 times (`flat_map(|&n| iter::repeat(n).take(4))`). -/
def add_cube_to_mesh (m : MeshData) (x y z : Int) : MeshData :=
  let cube_vertices : List (Int × Int × Int) :=
    [(x, y, z), (x + 1, y, z), (x + 1, y + 1, z), (x, y + 1, z),
     (x, y, z + 1), (x + 1, y, z + 1), (x + 1, y + 1, z + 1), (x, y + 1, z + 1)]
  let cube_indices : List Nat :=
    [0, 1, 2, 2, 3, 0,
     1, 5, 6, 6, 2, 1,
     5, 4, 7, 7, 6, 5,
     4, 0, 3, 3, 7, 4,
     3, 2, 6, 6, 7, 3,
     4, 5, 1, 1, 0, 4]
  let cube_normals : List (Int × Int × Int) :=
    [(0, 0, -1), (1, 0, 0), (0, 0, 1), (-1, 0, 0), (0, 1, 0), (0, -1, 0)]
  let start_index := m.vertices.length
  { vertices := m.vertices ++ cube_vertices,
    indices := m.indices ++ cube_indices.map (fun i => i + start_index),
    normals := m.normals ++ cube_normals.bind (fun n => List.replicate 4 n) }

/-- The mesh-building loop of `fn spawn_chunk` in `main.rs`: for every
`(x, y, z)` in x-major order, if `chunk_data[x][y][z]` then add one cube. -/
def build_mesh (chunk_data : VoxelGrid) : MeshData :=
  (List.range CHUNK_SIZE.toNat).foldl (fun m x =>
    (List.range CHUNK_SIZE.toNat).foldl (fun m y =>
      (List.range CHUNK_SIZE.toNat).foldl (fun m z =>
        if get3 chunk_data x y z then add_cube_to_mesh m (x : Int) (y : Int) (z : Int)
        else m) m) m)
    { vertices := [], indices := [], normals := [] }

/-- All local cells of a chunk, in the x-major order both loops visit. -/
def cellList : List (Nat × Nat × Nat) :=
  (List.range CHUNK_SIZE.toNat).bind fun x =>
    (List.range CHUNK_SIZE.toNat).bind fun y =>
      (List.range CHUNK_SIZE.toNat).map fun z => (x, y, z)

/-- `K`, the number of solid voxels of a grid. -/
def solid_count (g : VoxelGrid) : Nat :=
  (cellList.filter (fun t => get3 g t.1 t.2.1 t.2.2)).length

/-- The per-tick state `update_visible_chunks` reads and writes: the
`WorldMap` resource, the positions of the live `Chunk` render entities, and
a log of the coordinates `generate_chunk` has been run on (to count
generation passes). -/
structure StreamState where
  world_map : WorldMap
  rendered : List IVec3
  generated : List IVec3

/-- The body of the spawn loop of `update_visible_chunks` for one
coordinate — the chunk store's inline get-or-generate: if the store has an
entry, use it unchanged; otherwise run `generate_chunk`, insert the result,
and spawn a render entity for it. -/
def get_or_generate (height : Int → Int → Int) (s : StreamState) (coord : IVec3) :
    StreamState × VoxelGrid :=
  match assocLookup s.world_map.chunks coord with
  | some chunk_data => (s, chunk_data)
  | none =>
    let chunk_data := generate_chunk height coord
    ({ world_map := ⟨(coord, chunk_data) :: s.world_map.chunks⟩,
       rendered := coord :: s.rendered,
       generated := coord :: s.generated }, chunk_data)

/-- The state effect of one spawn-loop iteration. -/
def load_coord (height : Int → Int → Int) (s : StreamState) (coord : IVec3) : StreamState :=
  (get_or_generate height s coord).1

/-- The inclusive Rust range `-r..=r`. -/
def range_incl (r : Int) : List Int :=
  (List.range (2 * r + 1).toNat).map (fun i => -r + (i : Int))

/-- The offsets visited by the triple spawn loop of `update_visible_chunks`,
in x, y, z order. -/
def offsets (r : Int) : List IVec3 :=
  (range_incl r).bind fun x =>
    (range_incl r).bind fun y =>
      (range_incl r).map fun z => ⟨x, y, z⟩

/-- One run of the `update_visible_chunks` system of `main.rs`: compute the
player's chunk by floor division; despawn every rendered chunk at Chebyshev
distance `> RENDER_DISTANCE`; then for every offset in the
`(2R+1)³` cube, if the `WorldMap` store has no entry for that coordinate,
generate it, insert it, and spawn its render entity. -/
def update_visible_chunks (height : Int → Int → Int) (translation : Vec3q)
    (s : StreamState) : StreamState :=
  let player_chunk := chunk_coord_of translation
  let s1 : StreamState :=
    { s with rendered :=
        s.rendered.filter (fun c => !decide (chebyshev c player_chunk > RENDER_DISTANCE)) }
  (offsets RENDER_DISTANCE).foldl (fun st off => load_coord height st (player_chunk.add off)) s1

/-! ### Arithmetic facts about the floor / remainder model -/

lemma chunk_size_cast_pos : (0 : ℚ) < (CHUNK_SIZE : ℚ) := by norm_num [CHUNK_SIZE]

lemma rem_euclid_nonneg (q : ℚ) : 0 ≤ rem_euclid q (CHUNK_SIZE : ℚ) := by
  have hpos := chunk_size_cast_pos
  have h := Int.floor_le (q / (CHUNK_SIZE : ℚ))
  have h2 : ((⌊q / (CHUNK_SIZE : ℚ)⌋ : ℚ)) * (CHUNK_SIZE : ℚ) ≤ q := (le_div_iff hpos).mp h
  unfold rem_euclid
  linarith

lemma rem_euclid_lt (q : ℚ) : rem_euclid q (CHUNK_SIZE : ℚ) < (CHUNK_SIZE : ℚ) := by
  have hpos := chunk_size_cast_pos
  have h := Int.lt_floor_add_one (q / (CHUNK_SIZE : ℚ))
  have h2 : q < ((⌊q / (CHUNK_SIZE : ℚ)⌋ : ℚ) + 1) * (CHUNK_SIZE : ℚ) := (div_lt_iff hpos).mp h
  unfold rem_euclid
  linarith

lemma to_i32_of_nonneg {q : ℚ} (h : 0 ≤ q) : to_i32 q = ⌊q⌋ := by
  unfold to_i32
  exact if_pos h

lemma local_of_nonneg (q : ℚ) : 0 ≤ local_of q := by
  unfold local_of
  rw [to_i32_of_nonneg (rem_euclid_nonneg q)]
  exact Int.floor_nonneg.mpr (rem_euclid_nonneg q)

lemma local_of_lt (q : ℚ) : local_of q < CHUNK_SIZE := by
  unfold local_of
  rw [to_i32_of_nonneg (rem_euclid_nonneg q)]
  exact Int.floor_lt.mpr (by exact_mod_cast rem_euclid_lt q)

lemma floor_intCast_div_chunk (n : ℤ) : ⌊(n : ℚ) / (CHUNK_SIZE : ℚ)⌋ = n / CHUNK_SIZE := by
  have h : ((CHUNK_SIZE : ℚ)) = ((16 : ℕ) : ℚ) := by norm_num [CHUNK_SIZE]
  rw [h, Rat.floor_intCast_div_natCast]
  norm_num [CHUNK_SIZE]

lemma chunk_of_intCast (n : ℤ) : chunk_of (n : ℚ) = n / CHUNK_SIZE :=
  floor_intCast_div_chunk n

lemma rem_euclid_intCast (n : ℤ) :
    rem_euclid (n : ℚ) (CHUNK_SIZE : ℚ) = ((n % CHUNK_SIZE : ℤ) : ℚ) := by
  unfold rem_euclid
  rw [floor_intCast_div_chunk, Int.emod_def]
  push_cast
  ring

lemma to_i32_intCast_of_nonneg {m : ℤ} (h : 0 ≤ m) : to_i32 ((m : ℤ) : ℚ) = m := by
  rw [to_i32_of_nonneg (by exact_mod_cast h)]
  exact Int.floor_intCast m

lemma local_of_intCast (n : ℤ) : local_of (n : ℚ) = n % CHUNK_SIZE := by
  unfold local_of
  rw [rem_euclid_intCast]
  exact to_i32_intCast_of_nonneg (Int.emod_nonneg n (by norm_num [CHUNK_SIZE]))

lemma chunk_of_zero : chunk_of (0 : ℚ) = 0 := by
  rw [show (0 : ℚ) = ((0 : ℤ) : ℚ) by norm_num, chunk_of_intCast]
  decide

lemma chunk_of_one : chunk_of (1 : ℚ) = 0 := by
  rw [show (1 : ℚ) = ((1 : ℤ) : ℚ) by norm_num, chunk_of_intCast]
  decide

lemma chunk_of_neg_one : chunk_of (-1 : ℚ) = -1 := by
  rw [show (-1 : ℚ) = ((-1 : ℤ) : ℚ) by norm_num, chunk_of_intCast]
  decide

lemma local_of_zero : local_of (0 : ℚ) = 0 := by
  rw [show (0 : ℚ) = ((0 : ℤ) : ℚ) by norm_num, local_of_intCast]
  decide

lemma local_of_one : local_of (1 : ℚ) = 1 := by
  rw [show (1 : ℚ) = ((1 : ℤ) : ℚ) by norm_num, local_of_intCast]
  decide

lemma local_of_neg_one : local_of (-1 : ℚ) = 15 := by
  rw [show (-1 : ℚ) = ((-1 : ℤ) : ℚ) by norm_num, local_of_intCast]
  decide

lemma chunk_coord_of_zero : chunk_coord_of ⟨0, 0, 0⟩ = (⟨0, 0, 0⟩ : IVec3) := by
  simp [chunk_coord_of, chunk_of_zero]

/-! ### List helper lemmas -/

lemma list_getD_set {α : Type} (l : List α) (i j : Nat) (v d : α) :
    (l.set i v).getD j d = if i = j ∧ j < l.length then v else l.getD j d := by
  induction l generalizing i j with
  | nil => simp
  | cons a t ih =>
    cases i with
    | zero =>
      cases j with
      | zero => simp
      | succ j' => simp
    | succ i' =>
      cases j with
      | zero => simp [Nat.succ_ne_zero]
      | succ j' =>
        simp only [List.set_cons_succ, List.getD_cons_succ, List.length_cons, ih i' j',
          Nat.add_lt_add_iff_right, Nat.succ_inj]

lemma list_getD_replicate {α : Type} (n i : Nat) (a d : α) :
    (List.replicate n a).getD i d = if i < n then a else d := by
  induction n generalizing i with
  | zero => simp
  | succ n ih =>
    cases i with
    | zero => simp
    | succ i' =>
      rw [List.replicate_succ, List.getD_cons_succ, ih i']
      simp [Nat.succ_lt_succ_iff]

lemma foldl_bind {α β γ : Type} (f : α → List β) (g : γ → β → γ) (l : List α) (init : γ) :
    (l.bind f).foldl g init = l.foldl (fun acc x => (f x).foldl g acc) init := by
  induction l generalizing init with
  | nil => rfl
  | cons a t ih => simp [List.foldl_append, ih]

lemma get?_eq_some_getD {α : Type} (l : List α) (n : Nat) (d : α) (h : n < l.length) :
    l.get? n = some (l.getD n d) := by
  rw [List.getD_eq_get?, List.get?_eq_get h]
  rfl

/-! ### Grid shape and access lemmas -/

lemma chunk_size_toNat : CHUNK_SIZE.toNat = 16 := rfl

/-- The all-`false` grid `vec![vec![vec![false; 16]; 16]; 16]` the generator
starts from. -/
def emptyGrid : VoxelGrid :=
  List.replicate CHUNK_SIZE.toNat
    (List.replicate CHUNK_SIZE.toNat (List.replicate CHUNK_SIZE.toNat false))

/-- A well-formed 16×16×16 grid (what `generate_chunk` always produces). -/
def Shape16 (g : VoxelGrid) : Prop :=
  g.length = 16 ∧
  ∀ x < 16, (g.getD x []).length = 16 ∧
    ∀ y < 16, ((g.getD x []).getD y []).length = 16

lemma shape16_emptyGrid : Shape16 emptyGrid := by
  unfold emptyGrid Shape16
  rw [chunk_size_toNat]
  refine ⟨by simp, fun x hx => ?_⟩
  rw [list_getD_replicate, if_pos hx]
  refine ⟨by simp, fun y hy => ?_⟩
  rw [list_getD_replicate, if_pos hy]
  simp

lemma shape16_set3 {g : VoxelGrid} (hs : Shape16 g) (x y z : Nat) (b : Bool) :
    Shape16 (set3 g x y z b) := by
  obtain ⟨hlen, hin⟩ := hs
  unfold set3 Shape16
  refine ⟨by rw [List.length_set]; exact hlen, fun x' hx' => ?_⟩
  rw [list_getD_set]
  by_cases hxx : x = x' ∧ x' < g.length
  · rw [if_pos hxx]
    obtain ⟨rfl, -⟩ := hxx
    obtain ⟨hplane, hrow⟩ := hin x hx'
    refine ⟨by rw [List.length_set]; exact hplane, fun y' hy' => ?_⟩
    rw [list_getD_set]
    by_cases hyy : y = y' ∧ y' < (g.getD x []).length
    · rw [if_pos hyy]
      obtain ⟨rfl, -⟩ := hyy
      rw [List.length_set]
      exact hrow y hy'
    · rw [if_neg hyy]
      exact hrow y' hy'
  · rw [if_neg hxx]
    exact hin x' hx'

lemma get3_set3 {g : VoxelGrid} (hs : Shape16 g) {x y z : Nat} (a b c : Nat)
    (hx : x < 16) (hy : y < 16) (hz : z < 16) (v : Bool) :
    get3 (set3 g x y z v) a b c =
      if x = a ∧ y = b ∧ z = c then v else get3 g a b c := by
  obtain ⟨hlen, hin⟩ := hs
  unfold get3 set3
  rw [list_getD_set]
  by_cases hxa : x = a ∧ a < g.length
  · rw [if_pos hxa]
    obtain ⟨rfl, ha⟩ := hxa
    obtain ⟨hplane, hrow⟩ := hin x hx
    rw [list_getD_set]
    by_cases hyb : y = b ∧ b < (g.getD x []).length
    · rw [if_pos hyb]
      obtain ⟨rfl, hb⟩ := hyb
      rw [list_getD_set]
      by_cases hzc : z = c ∧ c < ((g.getD x []).getD y []).length
      · rw [if_pos hzc]
        obtain ⟨rfl, -⟩ := hzc
        rw [if_pos ⟨rfl, rfl, rfl⟩]
      · rw [if_neg hzc, if_neg]
        rintro ⟨-, -, rfl⟩
        exact hzc ⟨rfl, by rw [hrow y hy]; exact hz⟩
    · rw [if_neg hyb, if_neg]
      rintro ⟨-, rfl, -⟩
      exact hyb ⟨rfl, by rw [hplane]; exact hy⟩
  · rw [if_neg hxa, if_neg]
    rintro ⟨rfl, -, -⟩
    exact hxa ⟨rfl, by rw [hlen]; exact hx⟩

/-! ### Characterising `generate_chunk` -/

/-- The effect of one innermost iteration of the generator's triple loop on
the grid, as a function of the visited cell `t = (x, y, z)`. -/
def gen_step (height : Int → Int → Int) (c : IVec3) (g : VoxelGrid)
    (t : Nat × Nat × Nat) : VoxelGrid :=
  if c.y * CHUNK_SIZE + (t.2.1 : Int) <
      height (c.x * CHUNK_SIZE + (t.1 : Int)) (c.z * CHUNK_SIZE + (t.2.2 : Int)) then
    set3 g t.1 t.2.1 t.2.2 true
  else g

/-- The cells in the order the generator's `x`, `z`, `y` loops visit them. -/
def genTrips : List (Nat × Nat × Nat) :=
  (List.range CHUNK_SIZE.toNat).bind fun x =>
    (List.range CHUNK_SIZE.toNat).bind fun z =>
      (List.range CHUNK_SIZE.toNat).map fun y => (x, y, z)

lemma generate_chunk_eq_fold (height : Int → Int → Int) (c : IVec3) :
    generate_chunk height c = genTrips.foldl (gen_step height c) emptyGrid := by
  unfold generate_chunk genTrips emptyGrid gen_step
  simp only [foldl_bind, List.foldl_map]

lemma get3_emptyGrid (x y z : Nat) : get3 emptyGrid x y z = false := by
  unfold get3 emptyGrid
  rw [chunk_size_toNat, list_getD_replicate]
  by_cases hx : x < 16
  · rw [if_pos hx, list_getD_replicate]
    by_cases hy : y < 16
    · rw [if_pos hy, list_getD_replicate]
      by_cases hz : z < 16
      · rw [if_pos hz]
      · rw [if_neg hz]
    · rw [if_neg hy]
      rfl
  · rw [if_neg hx]
    rfl

lemma mem_genTrips {t : Nat × Nat × Nat} :
    t ∈ genTrips ↔ t.1 < 16 ∧ t.2.1 < 16 ∧ t.2.2 < 16 := by
  obtain ⟨x, y, z⟩ := t
  simp only [genTrips, chunk_size_toNat, List.mem_bind, List.mem_map, List.mem_range]
  constructor
  · rintro ⟨x', hx', z', hz', y', hy', heq⟩
    cases heq
    exact ⟨hx', hy', hz'⟩
  · rintro ⟨hx, hy, hz⟩
    exact ⟨x, hx, z, hz, y, hy, rfl⟩

lemma shape16_gen_step {g : VoxelGrid} (hs : Shape16 g) (height : Int → Int → Int)
    (c : IVec3) (t : Nat × Nat × Nat) : Shape16 (gen_step height c g t) := by
  unfold gen_step
  split
  · exact shape16_set3 hs _ _ _ _
  · exact hs

lemma shape16_foldl_gen_step (height : Int → Int → Int) (c : IVec3)
    (trips : List (Nat × Nat × Nat)) :
    ∀ g : VoxelGrid, Shape16 g → Shape16 (trips.foldl (gen_step height c) g) := by
  induction trips with
  | nil => exact fun g hg => hg
  | cons t ts ih =>
    intro g hg
    rw [List.foldl_cons]
    exact ih _ (shape16_gen_step hg height c t)

lemma get3_gen_step (height : Int → Int → Int) (c : IVec3) {g : VoxelGrid}
    (hs : Shape16 g) {t : Nat × Nat × Nat}
    (ht1 : t.1 < 16) (ht2 : t.2.1 < 16) (ht3 : t.2.2 < 16) (x y z : Nat) :
    get3 (gen_step height c g t) x y z =
      if t = (x, y, z) ∧ c.y * CHUNK_SIZE + (t.2.1 : Int) <
          height (c.x * CHUNK_SIZE + (t.1 : Int)) (c.z * CHUNK_SIZE + (t.2.2 : Int)) then
        true
      else get3 g x y z := by
  obtain ⟨tx, ty, tz⟩ := t
  unfold gen_step
  dsimp only at ht1 ht2 ht3 ⊢
  simp only [Prod.mk.injEq]
  by_cases hcond : c.y * CHUNK_SIZE + (ty : Int) <
      height (c.x * CHUNK_SIZE + (tx : Int)) (c.z * CHUNK_SIZE + (tz : Int))
  · rw [if_pos hcond, get3_set3 hs x y z ht1 ht2 ht3 true]
    by_cases hteq : tx = x ∧ ty = y ∧ tz = z
    · rw [if_pos hteq, if_pos ⟨hteq, hcond⟩]
    · rw [if_neg hteq, if_neg (fun h => hteq h.1)]
  · rw [if_neg hcond, if_neg (fun h => hcond h.2)]

lemma get3_foldl_gen_step (height : Int → Int → Int) (c : IVec3)
    (trips : List (Nat × Nat × Nat))
    (hall : ∀ t ∈ trips, t.1 < 16 ∧ t.2.1 < 16 ∧ t.2.2 < 16)
    {x y z : Nat} (hx : x < 16) (hy : y < 16) (hz : z < 16) :
    ∀ g : VoxelGrid, Shape16 g →
      get3 (trips.foldl (gen_step height c) g) x y z =
        if (x, y, z) ∈ trips ∧
            c.y * CHUNK_SIZE + (y : Int) <
              height (c.x * CHUNK_SIZE + (x : Int)) (c.z * CHUNK_SIZE + (z : Int)) then
          true
        else get3 g x y z := by
  induction trips with
  | nil => intro g _; simp
  | cons t ts ih =>
    intro g hg
    obtain ⟨ht1, ht2, ht3⟩ := hall t (List.mem_cons_self t ts)
    have hall' : ∀ u ∈ ts, u.1 < 16 ∧ u.2.1 < 16 ∧ u.2.2 < 16 :=
      fun u hu => hall u (List.mem_cons_of_mem t hu)
    rw [List.foldl_cons, ih hall' _ (shape16_gen_step hg height c t),
      get3_gen_step height c hg ht1 ht2 ht3 x y z]
    by_cases hcond : c.y * CHUNK_SIZE + (y : Int) <
        height (c.x * CHUNK_SIZE + (x : Int)) (c.z * CHUNK_SIZE + (z : Int))
    · by_cases hmem : (x, y, z) ∈ ts
      · rw [if_pos ⟨hmem, hcond⟩, if_pos ⟨List.mem_cons_of_mem t hmem, hcond⟩]
      · rw [if_neg (fun h => hmem h.1)]
        by_cases hteq : t = (x, y, z)
        · subst hteq
          rw [if_pos ⟨rfl, hcond⟩, if_pos ⟨List.mem_cons_self _ _, hcond⟩]
        · rw [if_neg (fun h => hteq h.1)]
          rw [if_neg]
          rintro ⟨hmem', -⟩
          rcases List.mem_cons.mp hmem' with h | h
          · exact hteq h.symm
          · exact hmem h
    · have hmid : ¬(t = (x, y, z) ∧ c.y * CHUNK_SIZE + (t.2.1 : Int) <
          height (c.x * CHUNK_SIZE + (t.1 : Int)) (c.z * CHUNK_SIZE + (t.2.2 : Int))) := by
        rintro ⟨rfl, h2⟩
        exact hcond h2
      rw [if_neg (fun h => hcond h.2), if_neg hmid, if_neg (fun h => hcond h.2)]

/-- C3 core: the grid `generate_chunk` returns holds `true` at `(x, y, z)`
exactly when `chunk_pos.y * CHUNK_SIZE + y < height(world_x, world_z)`. -/
lemma get3_generate (height : Int → Int → Int) (c : IVec3) {x y z : Nat}
    (hx : x < 16) (hy : y < 16) (hz : z < 16) :
    get3 (generate_chunk height c) x y z =
      decide (c.y * CHUNK_SIZE + (y : Int) <
        height (c.x * CHUNK_SIZE + (x : Int)) (c.z * CHUNK_SIZE + (z : Int))) := by
  rw [generate_chunk_eq_fold,
    get3_foldl_gen_step height c genTrips (fun t ht => mem_genTrips.mp ht) hx hy hz
      emptyGrid shape16_emptyGrid, get3_emptyGrid]
  by_cases hcond : c.y * CHUNK_SIZE + (y : Int) <
      height (c.x * CHUNK_SIZE + (x : Int)) (c.z * CHUNK_SIZE + (z : Int))
  · rw [if_pos ⟨mem_genTrips.mpr ⟨hx, hy, hz⟩, hcond⟩]
    simp [hcond]
  · rw [if_neg (fun h => hcond h.2)]
    simp [hcond]

lemma shape16_generate (height : Int → Int → Int) (c : IVec3) :
    Shape16 (generate_chunk height c) := by
  rw [generate_chunk_eq_fold]
  exact shape16_foldl_gen_step height c genTrips emptyGrid shape16_emptyGrid

/-! ### Store lookup lemmas -/

lemma assocLookup_eq_none_iff {α β : Type} [DecidableEq α] (l : List (α × β)) (a : α) :
    assocLookup l a = none ↔ a ∉ l.map Prod.fst := by
  induction l with
  | nil => simp [assocLookup]
  | cons p rest ih =>
    obtain ⟨k, v⟩ := p
    by_cases hk : k = a
    · subst hk
      simp [assocLookup]
    · simp [assocLookup, hk, ih, Ne.symm hk]

lemma assocLookup_mem {α β : Type} [DecidableEq α] {l : List (α × β)} {a : α} {b : β}
    (h : assocLookup l a = some b) : (a, b) ∈ l := by
  induction l with
  | nil => simp [assocLookup] at h
  | cons p rest ih =>
    obtain ⟨k, v⟩ := p
    by_cases hk : k = a
    · subst hk
      simp only [assocLookup, if_true, eq_self_iff_true, Option.some.injEq] at h
      subst h
      exact List.mem_cons_self _ _
    · rw [assocLookup, if_neg hk] at h
      exact List.mem_cons_of_mem _ (ih h)

lemma get3i_of_shape {g : VoxelGrid} (hs : Shape16 g) {i j k : Int}
    (hi0 : 0 ≤ i) (hi : i < CHUNK_SIZE) (hj0 : 0 ≤ j) (hj : j < CHUNK_SIZE)
    (hk0 : 0 ≤ k) (hk : k < CHUNK_SIZE) :
    get3i g i j k = some (get3 g i.toNat j.toNat k.toNat) := by
  obtain ⟨hlen, hin⟩ := hs
  have hi16 : i.toNat < 16 := by unfold CHUNK_SIZE at hi; omega
  have hj16 : j.toNat < 16 := by unfold CHUNK_SIZE at hj; omega
  have hk16 : k.toNat < 16 := by unfold CHUNK_SIZE at hk; omega
  obtain ⟨hplane, hrow⟩ := hin i.toNat hi16
  unfold get3i get3
  rw [if_pos ⟨hi0, hj0, hk0⟩]
  rw [get?_eq_some_getD g i.toNat [] (by rw [hlen]; exact hi16)]
  dsimp only
  rw [get?_eq_some_getD _ j.toNat [] (by rw [hplane]; exact hj16)]
  dsimp only
  rw [get?_eq_some_getD _ k.toNat false (by rw [hrow j.toNat hj16]; exact hk16)]

/-! ### Streaming-tick lemmas -/

lemma load_coord_lookup_some (height : Int → Int → Int) (s : StreamState)
    (coord k : IVec3) {g : VoxelGrid}
    (h : assocLookup s.world_map.chunks k = some g) :
    assocLookup (load_coord height s coord).world_map.chunks k = some g := by
  unfold load_coord get_or_generate
  cases hc : assocLookup s.world_map.chunks coord with
  | some g' => simpa [hc] using h
  | none =>
    have hne : coord ≠ k := by
      rintro rfl
      rw [h] at hc
      cases hc
    simp only [hc]
    rw [assocLookup, if_neg hne]
    exact h

lemma load_coord_not_rendered (height : Int → Int → Int) (s : StreamState)
    (coord c : IVec3)
    (hsome : (assocLookup s.world_map.chunks c).isSome) (hnr : c ∉ s.rendered) :
    c ∉ (load_coord height s coord).rendered := by
  unfold load_coord get_or_generate
  cases hc : assocLookup s.world_map.chunks coord with
  | some g' => simpa [hc] using hnr
  | none =>
    have hne : coord ≠ c := by
      rintro rfl
      rw [hc] at hsome
      cases hsome
    simp only [hc]
    intro hmem
    rcases List.mem_cons.mp hmem with h | h
    · exact hne h.symm
    · exact hnr h

lemma foldl_load_lookup_some (height : Int → Int → Int) (coords : List IVec3)
    {k : IVec3} {g : VoxelGrid} :
    ∀ s : StreamState, assocLookup s.world_map.chunks k = some g →
      assocLookup (coords.foldl (load_coord height) s).world_map.chunks k = some g := by
  induction coords with
  | nil => exact fun s h => h
  | cons coord rest ih =>
    intro s h
    rw [List.foldl_cons]
    exact ih _ (load_coord_lookup_some height s coord k h)

lemma foldl_load_not_rendered (height : Int → Int → Int) (coords : List IVec3)
    {c : IVec3} :
    ∀ s : StreamState, (assocLookup s.world_map.chunks c).isSome → c ∉ s.rendered →
      c ∉ (coords.foldl (load_coord height) s).rendered := by
  induction coords with
  | nil => exact fun s _ h => h
  | cons coord rest ih =>
    intro s hsome hnr
    rw [List.foldl_cons]
    have hsome' : (assocLookup (load_coord height s coord).world_map.chunks c).isSome := by
      obtain ⟨g, hg⟩ := Option.isSome_iff_exists.mp hsome
      rw [load_coord_lookup_some height s coord c hg]
      rfl
    exact ih _ hsome' (load_coord_not_rendered height s coord c hsome hnr)

/-- `update_visible_chunks` written as a single fold of `load_coord` over the
coordinates the spawn loop visits. -/
lemma update_visible_chunks_eq (height : Int → Int → Int) (translation : Vec3q)
    (s : StreamState) :
    update_visible_chunks height translation s =
      (((offsets RENDER_DISTANCE).map ((chunk_coord_of translation).add)).foldl
        (load_coord height)
        { s with rendered := s.rendered.filter (fun c => !decide (chebyshev c (chunk_coord_of translation) > RENDER_DISTANCE)) }) := by
  unfold update_visible_chunks
  rw [List.foldl_map]

/-! ### Mesh-building lemmas -/

/-- The effect of one innermost iteration of the mesh loop. -/
def mesh_step (chunk_data : VoxelGrid) (m : MeshData) (t : Nat × Nat × Nat) : MeshData :=
  if get3 chunk_data t.1 t.2.1 t.2.2 then
    add_cube_to_mesh m (t.1 : Int) (t.2.1 : Int) (t.2.2 : Int)
  else m

lemma build_mesh_eq_fold (g : VoxelGrid) :
    build_mesh g = cellList.foldl (mesh_step g) ⟨[], [], []⟩ := by
  unfold build_mesh cellList mesh_step
  simp only [foldl_bind, List.foldl_map]

lemma mem_cellList {t : Nat × Nat × Nat} :
    t ∈ cellList ↔ t.1 < 16 ∧ t.2.1 < 16 ∧ t.2.2 < 16 := by
  obtain ⟨x, y, z⟩ := t
  simp only [cellList, chunk_size_toNat, List.mem_bind, List.mem_map, List.mem_range]
  constructor
  · rintro ⟨x', hx', y', hy', z', hz', heq⟩
    cases heq
    exact ⟨hx', hy', hz'⟩
  · rintro ⟨hx, hy, hz⟩
    exact ⟨x, hx, y, hy, z, hz, rfl⟩

lemma add_cube_lengths (m : MeshData) (x y z : Int) :
    (add_cube_to_mesh m x y z).vertices.length = m.vertices.length + 8 ∧
    (add_cube_to_mesh m x y z).indices.length = m.indices.length + 36 ∧
    (add_cube_to_mesh m x y z).normals.length = m.normals.length + 24 := by
  unfold add_cube_to_mesh
  refine ⟨by simp, by simp, by simp⟩

lemma add_cube_indices_bound (m : MeshData) (x y z : Int)
    (h : ∀ i ∈ m.indices, i < m.vertices.length) :
    ∀ i ∈ (add_cube_to_mesh m x y z).indices,
      i < (add_cube_to_mesh m x y z).vertices.length := by
  intro i hi
  rw [(add_cube_lengths m x y z).1]
  unfold add_cube_to_mesh at hi
  simp only [List.mem_append, List.mem_map] at hi
  rcases hi with hi | ⟨j, hj, rfl⟩
  · exact Nat.lt_add_right 8 (h i hi)
  · have hj8 : ∀ j ∈ ([0, 1, 2, 2, 3, 0,
        1, 5, 6, 6, 2, 1,
        5, 4, 7, 7, 6, 5,
        4, 0, 3, 3, 7, 4,
        3, 2, 6, 6, 7, 3,
        4, 5, 1, 1, 0, 4] : List Nat), j < 8 := by decide
    have := hj8 j hj
    omega

lemma mesh_fold_lengths (g : VoxelGrid) (cs : List (Nat × Nat × Nat)) :
    ∀ m : MeshData,
      (cs.foldl (mesh_step g) m).vertices.length =
          m.vertices.length + 8 * (cs.filter (fun t => get3 g t.1 t.2.1 t.2.2)).length ∧
      (cs.foldl (mesh_step g) m).indices.length =
          m.indices.length + 36 * (cs.filter (fun t => get3 g t.1 t.2.1 t.2.2)).length ∧
      (cs.foldl (mesh_step g) m).normals.length =
          m.normals.length + 24 * (cs.filter (fun t => get3 g t.1 t.2.1 t.2.2)).length := by
  induction cs with
  | nil => intro m; simp
  | cons t ts ih =>
    intro m
    rw [List.foldl_cons]
    obtain ⟨h1, h2, h3⟩ := ih (mesh_step g m t)
    obtain ⟨a1, a2, a3⟩ := add_cube_lengths m (t.1 : Int) (t.2.1 : Int) (t.2.2 : Int)
    by_cases hg : get3 g t.1 t.2.1 t.2.2
    · rw [List.filter_cons_of_pos (by simpa using hg)]
      unfold mesh_step at h1 h2 h3
      rw [if_pos hg] at h1 h2 h3
      refine ⟨?_, ?_, ?_⟩
      · unfold mesh_step
        rw [if_pos hg, h1, a1]
        simp only [List.length_cons]
        ring
      · unfold mesh_step
        rw [if_pos hg, h2, a2]
        simp only [List.length_cons]
        ring
      · unfold mesh_step
        rw [if_pos hg, h3, a3]
        simp only [List.length_cons]
        ring
    · rw [List.filter_cons_of_neg (by simpa using hg)]
      unfold mesh_step at h1 h2 h3 ⊢
      rw [if_neg hg] at h1 h2 h3 ⊢
      exact ⟨h1, h2, h3⟩

lemma mesh_fold_indices_bound (g : VoxelGrid) (cs : List (Nat × Nat × Nat)) :
    ∀ m : MeshData, (∀ i ∈ m.indices, i < m.vertices.length) →
      ∀ i ∈ (cs.foldl (mesh_step g) m).indices,
        i < (cs.foldl (mesh_step g) m).vertices.length := by
  induction cs with
  | nil => exact fun m h => h
  | cons t ts ih =>
    intro m hm
    rw [List.foldl_cons]
    apply ih
    unfold mesh_step
    by_cases hg : get3 g t.1 t.2.1 t.2.2
    · rw [if_pos hg]
      exact add_cube_indices_bound m _ _ _ hm
    · rw [if_neg hg]
      exact hm

lemma build_mesh_stats (g : VoxelGrid) :
    (build_mesh g).vertices.length = 8 * solid_count g ∧
    (build_mesh g).indices.length = 36 * solid_count g ∧
    (build_mesh g).normals.length = 24 * solid_count g ∧
    ∀ i ∈ (build_mesh g).indices, i < (build_mesh g).vertices.length := by
  rw [build_mesh_eq_fold]
  obtain ⟨h1, h2, h3⟩ := mesh_fold_lengths g cellList ⟨[], [], []⟩
  refine ⟨by simpa using h1, by simpa using h2, by simpa using h3, ?_⟩
  exact mesh_fold_indices_bound g cellList ⟨[], [], []⟩ (by intro i hi; cases hi)

lemma solid_count_pos {g : VoxelGrid} {x y z : Nat} (hx : x < 16) (hy : y < 16)
    (hz : z < 16) (h : get3 g x y z = true) : 0 < solid_count g := by
  have hmem : (x, y, z) ∈ cellList := mem_cellList.mpr ⟨hx, hy, hz⟩
  have hf : (x, y, z) ∈ cellList.filter (fun t => get3 g t.1 t.2.1 t.2.2) :=
    List.mem_filter.mpr ⟨hmem, by simpa using h⟩
  exact List.length_pos.mpr (List.ne_nil_of_mem hf)

/-! ### Claim C3 -/

/-- C3: for every chunk coordinate `c` and local coordinate `(lx, ly, lz)`
with each component in `[0, CHUNK_SIZE)`, the grid returned by
`generate_chunk` at `c` marks the voxel solid iff
`c.y*CHUNK_SIZE + ly < height (c.x*CHUNK_SIZE + lx) (c.z*CHUNK_SIZE + lz)`,
for every (fixed-seed) height function. -/
theorem claim_C3_generation_coverage (height : Int → Int → Int) (c : IVec3)
    (lx ly lz : Nat) (hx : lx < CHUNK_SIZE.toNat) (hy : ly < CHUNK_SIZE.toNat)
    (hz : lz < CHUNK_SIZE.toNat) :
    get3 (generate_chunk height c) lx ly lz = true ↔
      c.y * CHUNK_SIZE + (ly : Int) <
        height (c.x * CHUNK_SIZE + (lx : Int)) (c.z * CHUNK_SIZE + (lz : Int)) := by
  rw [chunk_size_toNat] at hx hy hz
  rw [get3_generate height c hx hy hz]
  simp

/-- A sample height function for concrete instances. -/
def c3_height : Int → Int → Int := fun _ _ => 5

theorem claim_C3_generation_coverage_witness :
    (0 < CHUNK_SIZE.toNat) ∧
    (get3 (generate_chunk c3_height ⟨0, 0, 0⟩) 0 0 0 = true ↔
      (0 : Int) * CHUNK_SIZE + ((0 : Nat) : Int) <
        c3_height ((0 : Int) * CHUNK_SIZE + ((0 : Nat) : Int))
          ((0 : Int) * CHUNK_SIZE + ((0 : Nat) : Int))) :=
  ⟨by decide,
    claim_C3_generation_coverage c3_height ⟨0, 0, 0⟩ 0 0 0 (by decide) (by decide) (by decide)⟩

/-! ### Claim C4 -/

/-- C4: for any world point whose containing chunk has no resident grid in
the store, `check_collision` returns `false` (it does not fail). -/
theorem claim_C4_missing_chunk_returns_false (world_map : WorldMap) (position : Vec3q)
    (h : assocLookup world_map.chunks (chunk_coord_of position) = none) :
    check_collision world_map position = some false := by
  simp only [check_collision]
  rw [h]

theorem claim_C4_missing_chunk_returns_false_witness :
    assocLookup (WorldMap.mk []).chunks (chunk_coord_of ⟨0, 0, 0⟩) = none ∧
    check_collision ⟨[]⟩ ⟨0, 0, 0⟩ = some false :=
  ⟨rfl, claim_C4_missing_chunk_returns_false ⟨[]⟩ ⟨0, 0, 0⟩ rfl⟩

/-! ### Claim C5 -/

/-- A grid solid exactly at local `[15][0][0]`. -/
def c5_grid : VoxelGrid := set3 emptyGrid 15 0 0 true

/-- A store holding `c5_grid` at chunk coordinate `(-1, 0, 0)`. -/
def c5_map : WorldMap := ⟨[(⟨-1, 0, 0⟩, c5_grid)]⟩

/-- C5: the collision query computes local coordinates with a Euclidean
remainder: world x = -1 lies in the chunk at x = -1 and maps to local
x = 15 (not -1); querying `check_collision` at `(-1, 0, 0)` against a grid
solid only at local `[15][0][0]` reads exactly that voxel. -/
theorem claim_C5_euclidean_remainder :
    chunk_of (-1 : ℚ) = -1 ∧ local_of (-1 : ℚ) = 15 ∧
    check_collision c5_map ⟨-1, 0, 0⟩ = some true := by
  refine ⟨chunk_of_neg_one, local_of_neg_one, ?_⟩
  simp only [check_collision]
  have hcp : chunk_coord_of ⟨-1, 0, 0⟩ = (⟨-1, 0, 0⟩ : IVec3) := by
    simp [chunk_coord_of, chunk_of_neg_one, chunk_of_zero]
  rw [hcp]
  have hlook : assocLookup c5_map.chunks ⟨-1, 0, 0⟩ = some c5_grid := rfl
  rw [hlook]
  show get3i c5_grid (local_of (-1 : ℚ)) (local_of (0 : ℚ)) (local_of (0 : ℚ)) = some true
  rw [local_of_neg_one, local_of_zero]
  decide

/-! ### Claim C6 -/

/-- In the idealised exact arithmetic the spec intends, the local
coordinates `check_collision` computes lie in `[0, CHUNK_SIZE)` on every
axis, and indexing a well-formed resident grid always succeeds.  This is
what correct Euclidean-remainder arithmetic guarantees; the actual f32
computation deviates from it just below a chunk boundary (see
`rem_euclid_f32` below), which is why this is a lemma about the ideal
model, not the claim's theorem. -/
lemma ideal_collision_indices_in_bounds (world_map : WorldMap) (position : Vec3q)
    (hs : ∀ e ∈ world_map.chunks, Shape16 e.2) :
    (0 ≤ local_of position.x ∧ local_of position.x < CHUNK_SIZE) ∧
    (0 ≤ local_of position.y ∧ local_of position.y < CHUNK_SIZE) ∧
    (0 ≤ local_of position.z ∧ local_of position.z < CHUNK_SIZE) ∧
    (check_collision world_map position).isSome := by
  refine ⟨⟨local_of_nonneg _, local_of_lt _⟩, ⟨local_of_nonneg _, local_of_lt _⟩,
    ⟨local_of_nonneg _, local_of_lt _⟩, ?_⟩
  simp only [check_collision]
  cases hc : assocLookup world_map.chunks (chunk_coord_of position) with
  | none => rfl
  | some chunk =>
    have hsh : Shape16 chunk := hs _ (assocLookup_mem hc)
    dsimp only
    rw [get3i_of_shape hsh (local_of_nonneg _) (local_of_lt _) (local_of_nonneg _)
      (local_of_lt _) (local_of_nonneg _) (local_of_lt _)]
    rfl

/-- Round to nearest, ties to even, at 24-bit significand precision, for a
positive rational in the normal f32 range: the model of the one inexact
f32 operation in the collision path, the `r + rhs.abs()` addition inside
`f32::rem_euclid`.  `Int.log 2 q` is the exponent of the binade holding
`q`, so `2 ^ (Int.log 2 q - 23)` is the ULP there. -/
def roundf32 (q : ℚ) : ℚ :=
  let ulp : ℚ := 2 ^ (Int.log 2 q - 23)
  let m : ℚ := q / ulp
  let n : ℤ := ⌊m⌋
  if m - (n : ℚ) < 1 / 2 then (n : ℚ) * ulp
  else if 1 / 2 < m - (n : ℚ) then ((n : ℚ) + 1) * ulp
  else if n % 2 = 0 then (n : ℚ) * ulp else ((n : ℚ) + 1) * ulp

/-- `f32::rem_euclid(self, rhs)` faithfully:
`let r = self % rhs; if r < 0.0 { r + rhs.abs() } else { r }`.
The `%` (fmod) of representable operands is exact,
`self - rhs * trunc(self / rhs)` (`to_i32` is exactly truncation toward
zero); the adjustment `r + rhs.abs()` is a rounded f32 addition, and for a
tiny negative `self` it rounds up to exactly `rhs.abs()` — a value the
idealised `rem_euclid` never takes. -/
def rem_euclid_f32 (q n : ℚ) : ℚ :=
  let r := q - n * (to_i32 (q / n) : ℚ)
  if r < 0 then roundf32 (r + |n|) else r

/-- The local-coordinate computation of `check_collision` under the
faithful f32 remainder. -/
def local_of_f32 (q : ℚ) : Int := to_i32 (rem_euclid_f32 q (CHUNK_SIZE : ℚ))

/-- `fn check_collision` again, identical to `check_collision` except that
the rounding of `rem_euclid`'s adjustment is modelled instead of
idealised. -/
def check_collision_f32 (world_map : WorldMap) (position : Vec3q) : Option Bool :=
  let chunk_pos := chunk_coord_of position
  match assocLookup world_map.chunks chunk_pos with
  | some chunk =>
    get3i chunk (local_of_f32 position.x) (local_of_f32 position.y)
      (local_of_f32 position.z)
  | none => some false

lemma roundf32_sixteen_minus_eps : roundf32 (16 - (1 : ℚ) / 2 ^ 24) = 16 := by
  have he : Int.log 2 (16 - (1 : ℚ) / 2 ^ 24) = 3 := by
    rw [Int.log_of_one_le_right _ (by norm_num)]
    rw [show ⌊(16 - (1 : ℚ) / 2 ^ 24)⌋₊ = 15 by
      rw [Nat.floor_eq_iff (by norm_num)]
      norm_num]
    exact_mod_cast Nat.log_eq_of_pow_le_of_lt_pow (by norm_num) (by norm_num)
  simp only [roundf32, he]
  rw [show ((2 : ℚ) ^ ((3 : ℤ) - 23)) = 1 / 2 ^ 20 by norm_num]
  rw [show ((16 - (1 : ℚ) / 2 ^ 24) / (1 / 2 ^ 20)) = 16777216 - 1 / 16 by norm_num]
  rw [show ⌊(16777216 - (1 : ℚ) / 16)⌋ = 16777215 by
    rw [Int.floor_eq_iff]
    norm_num]
  rw [if_neg (by norm_num), if_pos (by norm_num)]
  norm_num

lemma chunk_of_tiny_neg : chunk_of (-(1 / 2 ^ 24) : ℚ) = -1 := by
  unfold chunk_of
  rw [show ((-(1 / 2 ^ 24) : ℚ) / (CHUNK_SIZE : ℚ)) = -(1 / 2 ^ 28) by
    norm_num [CHUNK_SIZE]]
  rw [Int.floor_eq_iff]
  norm_num

lemma rem_euclid_f32_tiny_neg :
    rem_euclid_f32 (-(1 / 2 ^ 24) : ℚ) (CHUNK_SIZE : ℚ) = (CHUNK_SIZE : ℚ) := by
  simp only [rem_euclid_f32]
  rw [show to_i32 ((-(1 / 2 ^ 24) : ℚ) / (CHUNK_SIZE : ℚ)) = 0 by
    unfold to_i32
    rw [if_neg (by norm_num [CHUNK_SIZE])]
    rw [show (-((-(1 / 2 ^ 24) : ℚ) / (CHUNK_SIZE : ℚ))) = 1 / 2 ^ 28 by
      norm_num [CHUNK_SIZE]]
    rw [show ⌊(1 / 2 ^ 28 : ℚ)⌋ = 0 by
      rw [Int.floor_eq_iff]
      norm_num]
    decide]
  rw [if_pos (by norm_num [CHUNK_SIZE])]
  rw [show ((-(1 / 2 ^ 24) : ℚ) - (CHUNK_SIZE : ℚ) * (((0 : ℤ) : ℤ) : ℚ) +
      |(CHUNK_SIZE : ℚ)|) = 16 - (1 : ℚ) / 2 ^ 24 by
    norm_num [CHUNK_SIZE]]
  rw [roundf32_sixteen_minus_eps]
  norm_num [CHUNK_SIZE]

lemma local_of_f32_tiny_neg : local_of_f32 (-(1 / 2 ^ 24) : ℚ) = 16 := by
  unfold local_of_f32
  rw [rem_euclid_f32_tiny_neg]
  unfold to_i32
  rw [if_pos (by norm_num [CHUNK_SIZE])]
  rw [show ((CHUNK_SIZE : ℚ)) = ((16 : ℤ) : ℚ) by norm_num [CHUNK_SIZE],
    Int.floor_intCast]

lemma local_of_f32_zero : local_of_f32 (0 : ℚ) = 0 := by
  unfold local_of_f32 rem_euclid_f32
  rw [show ((0 : ℚ) / (CHUNK_SIZE : ℚ)) = 0 by norm_num]
  rw [show to_i32 (0 : ℚ) = 0 by
    unfold to_i32
    rw [if_pos le_rfl]
    exact Int.floor_zero]
  rw [if_neg (by norm_num)]
  unfold to_i32
  rw [if_pos (by norm_num)]
  rw [show ((0 : ℚ) - (CHUNK_SIZE : ℚ) * ((0 : ℤ) : ℚ)) = 0 by norm_num]
  exact Int.floor_zero

/-- A store with the chunk at (-1, 0, 0) resident, as streaming loads it
whenever the observer stands near that boundary. -/
def c6_bug_map : WorldMap := ⟨[(⟨-1, 0, 0⟩, generate_chunk c3_height ⟨-1, 0, 0⟩)]⟩

/-- C6 (failing): at world x = -2⁻²⁴ (an exact f32) the adjustment
`r + rhs` inside `f32::rem_euclid` rounds up to exactly 16.0
(round-to-nearest at 24-bit precision), the `as i32` cast yields local
index 16 = CHUNK_SIZE, and with the containing chunk (-1, 0, 0) resident
the grid indexing panics — so the out-of-bounds branch the claim asserts
unreachable is reached at points arbitrarily close below a chunk
boundary. -/
theorem claim_C6_boundary_rounding_panic :
    rem_euclid_f32 (-(1 / 2 ^ 24) : ℚ) (CHUNK_SIZE : ℚ) = (CHUNK_SIZE : ℚ) ∧
    local_of_f32 (-(1 / 2 ^ 24) : ℚ) = 16 ∧
    chunk_of (-(1 / 2 ^ 24) : ℚ) = -1 ∧
    check_collision_f32 c6_bug_map ⟨-(1 / 2 ^ 24), 0, 0⟩ = none := by
  refine ⟨rem_euclid_f32_tiny_neg, local_of_f32_tiny_neg, chunk_of_tiny_neg, ?_⟩
  simp only [check_collision_f32]
  rw [show chunk_coord_of ⟨-(1 / 2 ^ 24), 0, 0⟩ = (⟨-1, 0, 0⟩ : IVec3) from by
    unfold chunk_coord_of
    rw [show (⟨-(1 / 2 ^ 24), 0, 0⟩ : Vec3q).x = (-(1 / 2 ^ 24) : ℚ) from rfl,
      show (⟨-(1 / 2 ^ 24), 0, 0⟩ : Vec3q).y = (0 : ℚ) from rfl,
      show (⟨-(1 / 2 ^ 24), 0, 0⟩ : Vec3q).z = (0 : ℚ) from rfl,
      chunk_of_tiny_neg, chunk_of_zero]]
  rw [show assocLookup c6_bug_map.chunks ⟨-1, 0, 0⟩ =
    some (generate_chunk c3_height ⟨-1, 0, 0⟩) from rfl]
  show get3i (generate_chunk c3_height ⟨-1, 0, 0⟩) (local_of_f32 (-(1 / 2 ^ 24) : ℚ))
    (local_of_f32 (0 : ℚ)) (local_of_f32 (0 : ℚ)) = none
  rw [local_of_f32_tiny_neg, local_of_f32_zero]
  unfold get3i
  rw [if_pos (by norm_num)]
  rw [show ((16 : ℤ).toNat) = 16 from rfl]
  rw [List.get?_eq_none.mpr (by rw [(shape16_generate c3_height ⟨-1, 0, 0⟩).1])]

/-! ### Claim C7 -/

lemma assocLookup_cons_self {α β : Type} [DecidableEq α] (k : α) (v : β)
    (l : List (α × β)) : assocLookup ((k, v) :: l) k = some v := by
  rw [assocLookup, if_pos rfl]

lemma get_or_generate_of_some (height : Int → Int → Int) {s : StreamState}
    {coord : IVec3} {g : VoxelGrid}
    (h : assocLookup s.world_map.chunks coord = some g) :
    get_or_generate height s coord = (s, g) := by
  unfold get_or_generate
  rw [h]

lemma get_or_generate_lookup (height : Int → Int → Int) (s : StreamState) (coord : IVec3) :
    assocLookup (get_or_generate height s coord).1.world_map.chunks coord =
      some (get_or_generate height s coord).2 := by
  unfold get_or_generate
  cases hc : assocLookup s.world_map.chunks coord with
  | some g =>
    dsimp only
    exact hc
  | none =>
    dsimp only
    exact assocLookup_cons_self _ _ _

/-- C7: requesting the same chunk coordinate twice through the spawn-loop
body of `update_visible_chunks` (the store's inline get-or-generate)
without an intervening removal performs generation at most once and yields
bit-identical grids: the second request changes no state (in particular no
second generation is logged) and returns exactly the grid the first request
stored; and distinct store keys stay distinct, so at most one grid is
resident per coordinate. -/
theorem claim_C7_get_or_generate_idempotent (height : Int → Int → Int)
    (s : StreamState) (coord : IVec3)
    (hnd : (s.world_map.chunks.map Prod.fst).Nodup) :
    (get_or_generate height (get_or_generate height s coord).1 coord).1 =
        (get_or_generate height s coord).1 ∧
    (get_or_generate height (get_or_generate height s coord).1 coord).2 =
        (get_or_generate height s coord).2 ∧
    assocLookup (get_or_generate height s coord).1.world_map.chunks coord =
        some (get_or_generate height s coord).2 ∧
    (get_or_generate height (get_or_generate height s coord).1 coord).1.generated =
        (get_or_generate height s coord).1.generated ∧
    ((get_or_generate height s coord).1.world_map.chunks.map Prod.fst).Nodup := by
  have hA := get_or_generate_lookup height s coord
  have h2 := get_or_generate_of_some height hA
  refine ⟨by rw [h2], by rw [h2], hA, by rw [h2], ?_⟩
  unfold get_or_generate
  cases hc : assocLookup s.world_map.chunks coord with
  | some g =>
    dsimp only
    exact hnd
  | none =>
    dsimp only
    rw [List.map_cons, List.nodup_cons]
    exact ⟨(assocLookup_eq_none_iff _ _).mp hc, hnd⟩

theorem claim_C7_get_or_generate_idempotent_witness :
    (((⟨⟨[]⟩, [], []⟩ : StreamState).world_map.chunks.map Prod.fst).Nodup) ∧
    (get_or_generate c3_height (get_or_generate c3_height ⟨⟨[]⟩, [], []⟩ ⟨0, 0, 0⟩).1
        ⟨0, 0, 0⟩).1 =
      (get_or_generate c3_height ⟨⟨[]⟩, [], []⟩ ⟨0, 0, 0⟩).1 :=
  ⟨by simp, (claim_C7_get_or_generate_idempotent c3_height ⟨⟨[]⟩, [], []⟩ ⟨0, 0, 0⟩
    (by simp)).1⟩

/-! ### Claim C8 -/

lemma floor_one_div_chunk : ⌊(1 : ℚ) / (CHUNK_SIZE : ℚ)⌋ = 0 := by
  have h := floor_intCast_div_chunk 1
  push_cast at h
  rw [h]
  decide

lemma to_i32_neg_one_div_chunk : to_i32 ((-1 : ℚ) / (CHUNK_SIZE : ℚ)) = 0 := by
  unfold to_i32
  rw [if_neg (by rw [not_le]; apply div_neg_of_neg_of_pos <;> norm_num [CHUNK_SIZE])]
  rw [show (-((-1 : ℚ) / (CHUNK_SIZE : ℚ))) = (1 : ℚ) / (CHUNK_SIZE : ℚ) by ring]
  rw [floor_one_div_chunk]
  decide

lemma to_i32_zero_div_chunk : to_i32 ((0 : ℚ) / (CHUNK_SIZE : ℚ)) = 0 := by
  unfold to_i32
  rw [if_pos (by norm_num)]
  norm_num

/-- C8 counterexample: at observer position (-1, 0, 0) the `generate_chunks`
system of `f.rs` computes observer chunk x-coordinate 0 (truncation toward
zero, `as_ivec3`), while floor division — what the claim asserts for every
observer position — gives -1; the truncated chunk does not even contain the
position, since 0 * CHUNK_SIZE ≤ -1 fails. -/
theorem claim_C8_counterexample :
    f_player_chunk ⟨-1, 0, 0⟩ = ⟨0, 0, 0⟩ ∧
    chunk_of (-1 : ℚ) = -1 ∧
    ¬(((f_player_chunk ⟨-1, 0, 0⟩).x : ℚ) * (CHUNK_SIZE : ℚ) ≤ -1) := by
  have hfp : f_player_chunk ⟨-1, 0, 0⟩ = ⟨0, 0, 0⟩ := by
    unfold f_player_chunk
    rw [show (⟨-1, 0, 0⟩ : Vec3q).x = (-1 : ℚ) from rfl,
      show (⟨-1, 0, 0⟩ : Vec3q).y = (0 : ℚ) from rfl,
      show (⟨-1, 0, 0⟩ : Vec3q).z = (0 : ℚ) from rfl,
      to_i32_neg_one_div_chunk, to_i32_zero_div_chunk]
  refine ⟨hfp, chunk_of_neg_one, ?_⟩
  have hx : (f_player_chunk ⟨-1, 0, 0⟩).x = 0 := by rw [hfp]
  rw [hx]
  norm_num [CHUNK_SIZE]

lemma chunk_of_bounds (q : ℚ) :
    ((chunk_of q : ℤ) : ℚ) * (CHUNK_SIZE : ℚ) ≤ q ∧
      q < ((chunk_of q + 1 : ℤ) : ℚ) * (CHUNK_SIZE : ℚ) := by
  unfold chunk_of
  constructor
  · exact (le_div_iff chunk_size_cast_pos).mp (Int.floor_le (q / (CHUNK_SIZE : ℚ)))
  · have h := (div_lt_iff chunk_size_cast_pos).mp
      (Int.lt_floor_add_one (q / (CHUNK_SIZE : ℚ)))
    push_cast
    push_cast at h
    linarith

/-- C8 amended: `update_visible_chunks` in `main.rs` does compute the
observer's chunk coordinate by floor-dividing each axis by `CHUNK_SIZE` —
for every observer position, negative components included, the computed
coordinate `c` satisfies `c*CHUNK_SIZE ≤ p < (c+1)*CHUNK_SIZE` per axis; the
`f.rs` variant instead truncates toward zero (see the counterexample). -/
theorem claim_C8_amended_floor_division (p : Vec3q) :
    (((chunk_coord_of p).x : ℚ) * (CHUNK_SIZE : ℚ) ≤ p.x ∧
      p.x < (((chunk_coord_of p).x + 1 : ℤ) : ℚ) * (CHUNK_SIZE : ℚ)) ∧
    (((chunk_coord_of p).y : ℚ) * (CHUNK_SIZE : ℚ) ≤ p.y ∧
      p.y < (((chunk_coord_of p).y + 1 : ℤ) : ℚ) * (CHUNK_SIZE : ℚ)) ∧
    (((chunk_coord_of p).z : ℚ) * (CHUNK_SIZE : ℚ) ≤ p.z ∧
      p.z < (((chunk_coord_of p).z + 1 : ℤ) : ℚ) * (CHUNK_SIZE : ℚ)) :=
  ⟨chunk_of_bounds p.x, chunk_of_bounds p.y, chunk_of_bounds p.z⟩

/-! ### Claim C9 -/

/-- A height function making chunk (0,0,0) fully solid (world_y < 16 for all
local y); the fixed-seed Perlin terrain near the origin has height ≈ 32 and
is likewise solid there. -/
def c9_height : Int → Int → Int := fun _ _ => 16

/-- A store whose chunk (0,0,0) is fully solid. -/
def c9_map : WorldMap := ⟨[(⟨0, 0, 0⟩, generate_chunk c9_height ⟨0, 0, 0⟩)]⟩

/-- C9 counterexample: the `f.rs` movement integrator performs no collision
query and commits unconditionally: against a store whose chunk (0,0,0) is
fully solid, the candidate point (1,1,1) is solid
(`check_collision = some true`), yet `f_player_movement` moves the observer
from the origin onto it. -/
theorem claim_C9_counterexample :
    check_collision c9_map ⟨1, 1, 1⟩ = some true ∧
    f_player_movement ⟨0, 0, 0⟩ ⟨1, 1, 1⟩ (1 / 10) = ⟨1, 1, 1⟩ ∧
    (⟨1, 1, 1⟩ : Vec3q) ≠ ⟨0, 0, 0⟩ := by
  refine ⟨?_, ?_, ?_⟩
  · simp only [check_collision]
    rw [show chunk_coord_of ⟨1, 1, 1⟩ = (⟨0, 0, 0⟩ : IVec3) from by
      simp [chunk_coord_of, chunk_of_one]]
    rw [show assocLookup c9_map.chunks ⟨0, 0, 0⟩ =
      some (generate_chunk c9_height ⟨0, 0, 0⟩) from rfl]
    show get3i (generate_chunk c9_height ⟨0, 0, 0⟩)
      (local_of (1 : ℚ)) (local_of (1 : ℚ)) (local_of (1 : ℚ)) = some true
    rw [local_of_one]
    rw [get3i_of_shape (shape16_generate c9_height ⟨0, 0, 0⟩)
      (by norm_num) (by norm_num [CHUNK_SIZE]) (by norm_num) (by norm_num [CHUNK_SIZE])
      (by norm_num) (by norm_num [CHUNK_SIZE])]
    rw [show (1 : ℤ).toNat = 1 from rfl]
    rw [get3_generate c9_height ⟨0, 0, 0⟩ (by norm_num) (by norm_num) (by norm_num)]
    simp [c9_height, CHUNK_SIZE]
  · show Vec3q.vadd ⟨0, 0, 0⟩ (Vec3q.scale (10 * (1 / 10)) ⟨1, 1, 1⟩) = ⟨1, 1, 1⟩
    simp only [Vec3q.vadd, Vec3q.scale, Vec3q.mk.injEq]
    norm_num
  · intro h
    have := congrArg Vec3q.x h
    norm_num at this

/-- C9 amended: `main.rs`'s `player_movement` queries `check_collision`
exactly once, with the candidate position
`translation + direction * 5 * delta_seconds`, and commits the move iff
that single point is not solid; when it is solid the move is rejected
entirely and the position is unchanged (no sliding or partial resolution).
The `f.rs` variant has no collision query (see the counterexample). -/
theorem claim_C9_amended_collision_gating (world_map : WorldMap)
    (translation direction : Vec3q) (dt : ℚ) (b : Bool)
    (h : check_collision world_map
        (translation.vadd (Vec3q.scale (5 * dt) direction)) = some b) :
    player_movement world_map translation direction dt =
      some (if b then translation
            else translation.vadd (Vec3q.scale (5 * dt) direction)) := by
  simp only [player_movement]
  rw [h]
  cases b
  · rfl
  · rfl

theorem claim_C9_amended_collision_gating_witness :
    check_collision ⟨[]⟩
        ((⟨0, 0, 0⟩ : Vec3q).vadd (Vec3q.scale (5 * 0) ⟨0, 0, 0⟩)) = some false ∧
    player_movement ⟨[]⟩ ⟨0, 0, 0⟩ ⟨0, 0, 0⟩ 0 =
      some (if false then (⟨0, 0, 0⟩ : Vec3q)
            else (⟨0, 0, 0⟩ : Vec3q).vadd (Vec3q.scale (5 * 0) ⟨0, 0, 0⟩)) :=
  ⟨rfl, claim_C9_amended_collision_gating ⟨[]⟩ ⟨0, 0, 0⟩ ⟨0, 0, 0⟩ 0 false rfl⟩

/-! ### Claim C10 -/

/-- C10: one run of `update_visible_chunks` never removes or replaces a
`WorldMap` entry: any coordinate-to-grid binding resident before the tick is
still resident, bit-identical, after it — despawning an out-of-range render
entity leaves the store untouched, so the store's key set only grows and
every once-generated grid stays visible to collision queries. -/
theorem claim_C10_store_entries_persist (height : Int → Int → Int)
    (translation : Vec3q) (s : StreamState) (k : IVec3) (g : VoxelGrid)
    (h : assocLookup s.world_map.chunks k = some g) :
    assocLookup (update_visible_chunks height translation s).world_map.chunks k = some g := by
  rw [update_visible_chunks_eq]
  exact foldl_load_lookup_some height _ _ h

/-- A starting state with one resident, rendered chunk. -/
def c10_state : StreamState := ⟨⟨[(⟨0, 0, 0⟩, c5_grid)]⟩, [⟨0, 0, 0⟩], []⟩

theorem claim_C10_store_entries_persist_witness :
    assocLookup c10_state.world_map.chunks ⟨0, 0, 0⟩ = some c5_grid ∧
    assocLookup (update_visible_chunks c3_height ⟨0, 0, 0⟩ c10_state).world_map.chunks
      ⟨0, 0, 0⟩ = some c5_grid :=
  ⟨rfl, claim_C10_store_entries_persist c3_height ⟨0, 0, 0⟩ c10_state ⟨0, 0, 0⟩ c5_grid rfl⟩

/-! ### Claim C1 -/

/-- A flat height function (no solid voxels), for the C1 scenario. -/
def c1_height : Int → Int → Int := fun _ _ => 0

/-- The coordinate whose chunk was generated earlier. -/
def c1_coord : IVec3 := ⟨0, 0, 0⟩

/-- State after an earlier visit and departure: chunk (0,0,0) is resident in
the `WorldMap` store but its render entity has been despawned. -/
def c1_state : StreamState := ⟨⟨[(c1_coord, generate_chunk c1_height c1_coord)]⟩, [], []⟩

/-- C1 (failing run): the observer stands at the origin, so chunk (0,0,0)
has Chebyshev distance 0 ≤ RENDER_DISTANCE; its grid is resident but its
render entity was despawned earlier.  One full run of
`update_visible_chunks` does not re-render it — the spawn loop keys on
`world_map.contains_key`, not on the rendered set — so the rendered set
does not equal the Chebyshev ball: an in-range coordinate stays missing. -/
theorem claim_C1_reentered_chunk_not_rerendered :
    chebyshev c1_coord (chunk_coord_of ⟨0, 0, 0⟩) ≤ RENDER_DISTANCE ∧
    c1_coord ∉ (update_visible_chunks c1_height ⟨0, 0, 0⟩ c1_state).rendered := by
  constructor
  · rw [chunk_coord_of_zero]
    decide
  · rw [update_visible_chunks_eq]
    apply foldl_load_not_rendered
    · show (assocLookup c1_state.world_map.chunks c1_coord).isSome
      rfl
    · exact List.not_mem_nil c1_coord

/-! ### Claim C2 -/

/-- A height function whose generated chunk at the origin has exactly one
solid voxel (the bottom of the single column at x = z = 0). -/
def c2_height : Int → Int → Int := fun x z => if x = 0 ∧ z = 0 then 1 else 0

/-- The generated single-voxel grid. -/
def c2_grid : VoxelGrid := generate_chunk c2_height ⟨0, 0, 0⟩

/-- C2 (failing): the mesh `spawn_chunk` builds over a grid with K solid
voxels has exactly 8K vertices and 36K indices, and every index is below
the vertex count — but it has 24K normals (`add_cube_to_mesh` pushes the 6
face normals 4 times each per cube), not the 8K the claim states; any grid
with K ≥ 1, such as this generated one, exhibits the mismatch. -/
theorem claim_C2_normals_mismatch :
    (build_mesh c2_grid).vertices.length = 8 * solid_count c2_grid ∧
    (build_mesh c2_grid).indices.length = 36 * solid_count c2_grid ∧
    (∀ i ∈ (build_mesh c2_grid).indices, i < (build_mesh c2_grid).vertices.length) ∧
    (build_mesh c2_grid).normals.length = 24 * solid_count c2_grid ∧
    0 < solid_count c2_grid ∧
    (build_mesh c2_grid).normals.length ≠ 8 * solid_count c2_grid := by
  obtain ⟨h1, h2, h3, h4⟩ := build_mesh_stats c2_grid
  have hsolid : get3 c2_grid 0 0 0 = true := by
    rw [show c2_grid = generate_chunk c2_height ⟨0, 0, 0⟩ from rfl]
    rw [get3_generate c2_height ⟨0, 0, 0⟩ (by norm_num) (by norm_num) (by norm_num)]
    simp [c2_height, CHUNK_SIZE]
  have hpos : 0 < solid_count c2_grid :=
    @solid_count_pos c2_grid 0 0 0 (by norm_num) (by norm_num) (by norm_num) hsolid
  refine ⟨h1, h2, h4, h3, hpos, ?_⟩
  rw [h3]
  omega
